import Mathlib

/-!
Verification of the mosaic layout engine: a shallow embedding of the
geometry primitives, grid snapping, placement search, nudge resolver,
global collision resolver, z-order handling and the drag/resize update
steps, together with theorems settling the specified properties.

Coordinates are modelled as integers (`Int`).  The functions that, in the
source, close over an optional snapping function (`maybeSnap`) are embedded
with an explicit `msnap : Int → Int` parameter; the variant of the engine
that never snaps inside the algorithms corresponds to `msnap = fun v => v`,
and the snapping-enabled variant to `msnap = snapToGrid`.
-/

inductive PieceType where
  | image : PieceType
  | color : PieceType
deriving DecidableEq

/-- Embeds the `MosaicPiece` record: identity, content variant, content
references, and the rectangle geometry `width`/`height`/`top`/`left`. -/
structure Piece where
  id : String
  type : PieceType
  src : Option String
  color : Option String
  width : Int
  height : Int
  top : Int
  left : Int
deriving DecidableEq

def GRID_SIZE : Int := 20

def MIN_SIZE : Int := 30

/-- Embeds `snapToGrid`: `Math.round(value / GRID_SIZE) * GRID_SIZE`.
JavaScript `Math.round x` rounds half-up (toward `+∞`), i.e. it is
`⌊x + 1/2⌋`; hence `Math.round (v / 20) = ⌊(v + 10) / 20⌋`, which is the
floor division `(v + 10).fdiv 20`. -/
def snapToGrid (value : Int) : Int := ((value + 10).fdiv 20) * 20

/-- Embeds `doOverlap`: the four half-plane exclusion tests on the derived
`rectA`/`rectB` bounds (`right = left + width`, `bottom = top + height`),
negated. -/
def doOverlap (a b : Piece) : Bool :=
  !(decide (a.left + a.width ≤ b.left) ||
    decide (a.left ≥ b.left + b.width) ||
    decide (a.top + a.height ≤ b.top) ||
    decide (a.top ≥ b.top + b.height))

/-- Embeds one displacement of the nudge loop body: move by one grid step in
direction `dir`, passing both coordinates through the session snap
function. -/
def nudgeStep (msnap : Int → Int) (dir : Int × Int) (p : Piece) : Piece :=
  { p with
    left := msnap (p.left + dir.1 * GRID_SIZE),
    top := msnap (p.top + dir.2 * GRID_SIZE) }

/-- Embeds the overlap test of the nudge loop: `others.some (o => o.id !==
updated.id && doOverlap(updated, o))`. -/
def nudgeAnyOverlap (p : Piece) (others : List Piece) : Bool :=
  others.any (fun o => decide (o.id ≠ p.id) && doOverlap p o)

/-- Embeds the `while` loop of `nudgeUntilNoOverlap` with explicit fuel: the
loop checks, then displaces, and exits unconditionally once the
post-increment counter exceeds `MAX_ITER = 200`, so at most `201`
displacements occur and the final displacement is not followed by a
check. -/
def nudgeGo (msnap : Int → Int) (others : List Piece) (dir : Int × Int) :
    Nat → Piece → Piece
  | 0, p => p
  | fuel + 1, p =>
    if nudgeAnyOverlap p others then
      nudgeGo msnap others dir fuel (nudgeStep msnap dir p)
    else p

/-- Embeds `nudgeUntilNoOverlap` (snap-parameterized variant). -/
def nudgeUntilNoOverlapS (msnap : Int → Int) (piece : Piece)
    (others : List Piece) (dir : Int × Int) : Piece :=
  nudgeGo msnap others dir 201 piece

/-- Embeds `nudgeUntilNoOverlap` of the page variant, which never snaps
inside the loop. -/
def nudgeUntilNoOverlap (piece : Piece) (others : List Piece)
    (dir : Int × Int) : Piece :=
  nudgeUntilNoOverlapS (fun v => v) piece others dir

/-- Embeds the inner `for j` loop of `resolveAllCollisions`: scan indices
`j, j+1, …` against the fixed `i`, nudging the later piece of each
overlapping pair in place (`updatedPieces[j] = newP2`) and accumulating the
`collisionFound` flag.  The nudge target set is
`updatedPieces.filter((_, idx) => idx !== j)` and the direction is rightward
exactly when the earlier piece has strictly smaller area. -/
def scanJ (msnap : Int → Int) (i : Nat) :
    Nat → Nat → List Piece → Bool → List Piece × Bool
  | 0, _, ps, found => (ps, found)
  | fuel + 1, j, ps, found =>
    if j < ps.length then
      match ps[i]?, ps[j]? with
      | some p1, some p2 =>
        if doOverlap p1 p2 then
          scanJ msnap i fuel (j + 1)
            (ps.set j
              (nudgeUntilNoOverlapS msnap p2 (ps.eraseIdx j)
                (if p1.width * p1.height < p2.width * p2.height then
                  ((1 : Int), (0 : Int))
                else ((0 : Int), (1 : Int)))))
            true
        else scanJ msnap i fuel (j + 1) ps found
      | _, _ => scanJ msnap i fuel (j + 1) ps found
    else (ps, found)

/-- Embeds the outer `for i` loop of `resolveAllCollisions`: for each `i`,
run the inner loop from `j = i + 1`. -/
def scanI (msnap : Int → Int) :
    Nat → Nat → List Piece → Bool → List Piece × Bool
  | 0, _, ps, found => (ps, found)
  | fuel + 1, i, ps, found =>
    if i < ps.length then
      scanI msnap fuel (i + 1) (scanJ msnap i ps.length (i + 1) ps found).1
        (scanJ msnap i ps.length (i + 1) ps found).2
    else (ps, found)

/-- Embeds one full pass of `resolveAllCollisions`: scan all ordered index
pairs `(i, j)` with `i < j`, starting with `collisionFound = false`. -/
def onePass (msnap : Int → Int) (ps : List Piece) : List Piece × Bool :=
  scanI msnap ps.length 0 ps false

/-- Embeds the `while (iteration < MAX_GLOBAL_ITER)` loop of
`resolveAllCollisions` with explicit fuel: run a pass; stop when the pass
found no collision, or when the fuel (`500` passes) is exhausted. -/
def resolveLoop (msnap : Int → Int) : Nat → List Piece → List Piece
  | 0, ps => ps
  | fuel + 1, ps =>
    if (onePass msnap ps).2 then resolveLoop msnap fuel (onePass msnap ps).1
    else (onePass msnap ps).1

/-- Embeds `resolveAllCollisions` (snap-parameterized variant):
`MAX_GLOBAL_ITER = 500` passes. -/
def resolveAllCollisionsS (msnap : Int → Int) (pieces : List Piece) :
    List Piece :=
  resolveLoop msnap 500 pieces

/-- Embeds `resolveAllCollisions` of the page variant (no snapping inside
the algorithm). -/
def resolveAllCollisions (pieces : List Piece) : List Piece :=
  resolveAllCollisionsS (fun v => v) pieces

/-- Embeds the `while` loop of `findNonOverlappingPlacement` with explicit
fuel: check the candidate against every existing piece; while some overlap
exists, shift the candidate down one grid step, at most `MAX_PLACE_ITER =
500` times; after the last shift the candidate is returned unchecked. -/
def placeGo (msnap : Int → Int) (existing : List Piece) :
    Nat → Piece → Piece
  | 0, c => c
  | fuel + 1, c =>
    if existing.any (fun o => doOverlap c o) then
      placeGo msnap existing fuel { c with top := msnap (c.top + GRID_SIZE) }
    else c

/-- Embeds `findNonOverlappingPlacement` (snap-parameterized variant). -/
def findNonOverlappingPlacementS (msnap : Int → Int) (newPiece : Piece)
    (existing : List Piece) : Piece :=
  placeGo msnap existing 500 newPiece

/-- Embeds `findNonOverlappingPlacement` of the page variant (the downward
shift is not snapped). -/
def findNonOverlappingPlacement (newPiece : Piece)
    (existing : List Piece) : Piece :=
  findNonOverlappingPlacementS (fun v => v) newPiece existing

/-- Embeds `bringToFront`: locate the piece by id (`findIndex`); if absent
(`-1`) return the list unchanged, otherwise remove it (`splice`) and append
it at the end (`push`). -/
def bringToFront (pieces : List Piece) (pieceId : String) : List Piece :=
  match pieces.findIdx? (fun p => p.id == pieceId) with
  | none => pieces
  | some idx =>
    match pieces[idx]? with
    | none => pieces
    | some piece => pieces.eraseIdx idx ++ [piece]

/-- Embeds the resizing branch of `handlePointerMove`: per-edge update of
the target piece from the captured initial geometry and the pointer delta,
with each edge change rejected whenever the resulting dimension would fall
below `MIN_SIZE`. -/
def resizeStepS (msnap : Int → Int) (edge : String)
    (initW initH initTop initLeft dx dy : Int) (piece : Piece) : Piece :=
  if edge = "left" then
    if initW - dx ≥ MIN_SIZE then
      { piece with left := msnap (initLeft + dx), width := msnap (initW - dx) }
    else piece
  else if edge = "right" then
    if initW + dx ≥ MIN_SIZE then
      { piece with width := msnap (initW + dx) }
    else piece
  else if edge = "top" then
    if initH - dy ≥ MIN_SIZE then
      { piece with top := msnap (initTop + dy), height := msnap (initH - dy) }
    else piece
  else if edge = "bottom" then
    if initH + dy ≥ MIN_SIZE then
      { piece with height := msnap (initH + dy) }
    else piece
  else piece

/-- Embeds the resizing branch of the page variant, whose snap is always
`snapToGrid`. -/
def resizeStep (edge : String) (initW initH initTop initLeft dx dy : Int)
    (piece : Piece) : Piece :=
  resizeStepS snapToGrid edge initW initH initTop initLeft dx dy piece

/-- Embeds the dragging branch of `handlePointerMove`: the dragged piece's
position is replaced by the snapped pointer-derived coordinates. -/
def dragUpdateS (msnap : Int → Int) (piece : Piece)
    (newLeft newTop : Int) : Piece :=
  { piece with left := msnap newLeft, top := msnap newTop }

/-- Embeds the dragging branch of the page variant (snap always on). -/
def dragUpdate (piece : Piece) (newLeft newTop : Int) : Piece :=
  dragUpdateS snapToGrid piece newLeft newTop

/-- Embeds the geometry of piece creation in `onFileChange`: every geometry
field of the candidate passes through the snap function. -/
def mkImagePieceS (msnap : Int → Int) (pid srcUrl : String)
    (w h t l : Int) : Piece :=
  { id := pid, type := PieceType.image, src := some srcUrl, color := none,
    width := msnap w, height := msnap h, top := msnap t, left := msnap l }

/-- Embeds the geometry of piece creation in `addColorBlocks`: every
geometry field of the candidate passes through the snap function. -/
def mkColorPieceS (msnap : Int → Int) (pid colorVal : String)
    (w h t l : Int) : Piece :=
  { id := pid, type := PieceType.color, src := none, color := some colorVal,
    width := msnap w, height := msnap h, top := msnap t, left := msnap l }

/-- Statement vocabulary: the non-positional fields of a piece (identity,
content variant, content, and extent). -/
structure PieceFrame where
  id : String
  type : PieceType
  src : Option String
  color : Option String
  width : Int
  height : Int
deriving DecidableEq

/-- Statement vocabulary: project a piece to its non-positional fields. -/
def frame (p : Piece) : PieceFrame :=
  { id := p.id, type := p.type, src := p.src, color := p.color,
    width := p.width, height := p.height }

/-- Statement vocabulary: the piece displaced by `k` grid steps in direction
`dir` (what `k` iterations of the unsnapped nudge loop body produce). -/
def dispPiece (p : Piece) (dir : Int × Int) (k : Nat) : Piece :=
  { p with
    left := p.left + dir.1 * GRID_SIZE * (k : Int),
    top := p.top + dir.2 * GRID_SIZE * (k : Int) }

/-- Statement vocabulary: all four geometry fields are exact multiples of
the grid step. -/
def Aligned (p : Piece) : Prop :=
  p.top % 20 = 0 ∧ p.left % 20 = 0 ∧ p.width % 20 = 0 ∧ p.height % 20 = 0

/-- Statement vocabulary: no two pieces of the list (in order) overlap. -/
def OverlapFree (ps : List Piece) : Prop :=
  ps.Pairwise (fun a b => doOverlap a b = false)

instance : DecidablePred Aligned := by
  intro p
  unfold Aligned
  infer_instance

/-- Statement vocabulary: the resolver outer loop instrumented with the
number of passes it executes, used to state the pass-ceiling bound. -/
def resolveLoopCount (msnap : Int → Int) : Nat → List Piece → List Piece × Nat
  | 0, ps => (ps, 0)
  | fuel + 1, ps =>
    if (onePass msnap ps).2 then
      ((resolveLoopCount msnap fuel (onePass msnap ps).1).1,
       (resolveLoopCount msnap fuel (onePass msnap ps).1).2 + 1)
    else ((onePass msnap ps).1, 1)

/-- Statement vocabulary: `resolveAllCollisions` of the page variant,
instrumented with the number of passes executed. -/
def resolveAllCollisionsCount (pieces : List Piece) : List Piece × Nat :=
  resolveLoopCount (fun v => v) 500 pieces

/-- Concrete obstacle for the nudge-ceiling counterexample: a 4040-wide
strip at the origin. -/
def exWide : Piece :=
  { id := "a", type := PieceType.color, src := none, color := some "#F44336",
    width := 4040, height := 100, top := 0, left := 0 }

/-- Concrete nudged piece at horizontal position `x` for the nudge-ceiling
counterexample. -/
def exProbe (x : Int) : Piece :=
  { id := "b", type := PieceType.color, src := none, color := some "#3F51B5",
    width := 20, height := 20, top := 0, left := x }

/-- Concrete piece for the resolver-idempotence counterexample: a very tall
strip that the second piece can never be nudged clear of within the pass
ceiling. -/
def exBig : Piece :=
  { id := "a", type := PieceType.color, src := none, color := some "#FFC107",
    width := 100, height := 2010040, top := 0, left := 0 }

/-- Concrete piece at vertical position `t` for the resolver-idempotence
counterexample. -/
def exSmallAt (t : Int) : Piece :=
  { id := "b", type := PieceType.color, src := none, color := some "#8BC34A",
    width := 20, height := 20, top := t, left := 0 }

instance (ps : List Piece) : Decidable (OverlapFree ps) := by
  unfold OverlapFree
  infer_instance

/-- Concrete piece used to instantiate theorems: a 40 by 40 block at the
origin. -/
def wBlockA : Piece :=
  { id := "a", type := PieceType.color, src := none, color := some "#FFC107",
    width := 40, height := 40, top := 0, left := 0 }

/-- Concrete piece used to instantiate theorems: a 40 by 40 block at
`left = 100`, clear of `wBlockA`. -/
def wBlockB : Piece :=
  { id := "b", type := PieceType.color, src := none, color := some "#8BC34A",
    width := 40, height := 40, top := 0, left := 100 }

/-- Concrete piece used to instantiate theorems: a 40 by 40 block at the
origin with id `"b"`, overlapping `wBlockA` with equal area. -/
def wBlockC : Piece :=
  { id := "b", type := PieceType.color, src := none, color := some "#E91E63",
    width := 40, height := 40, top := 0, left := 0 }

/-! Generic helper lemmas. -/

lemma set_getElem?_eq_self {α : Type} (l : List α) (n : Nat) (a : α)
    (h : l[n]? = some a) : l.set n a = l := by
  apply List.ext_getElem?
  intro m
  rcases eq_or_ne m n with rfl | hne
  · have hlt : m < l.length := by
      by_contra hge
      simp [List.getElem?_eq_none (Nat.le_of_not_lt hge)] at h
    simp [List.getElem?_set_self, hlt, h]
  · simp [List.getElem?_set_ne hne.symm]

lemma doOverlap_eq_true_iff (a b : Piece) :
    doOverlap a b = true ↔
      (b.left < a.left + a.width ∧ a.left < b.left + b.width ∧
       b.top < a.top + a.height ∧ a.top < b.top + b.height) := by
  simp only [doOverlap, Bool.not_eq_true', Bool.or_eq_false_iff,
    decide_eq_false_iff_not, ge_iff_le, not_le]
  tauto

lemma dispPiece_zero (p : Piece) (dir : Int × Int) : dispPiece p dir 0 = p := by
  simp [dispPiece]

lemma dispPiece_dispPiece (p : Piece) (dir : Int × Int) (a b : Nat) :
    dispPiece (dispPiece p dir a) dir b = dispPiece p dir (a + b) := by
  simp only [dispPiece]
  refine congrArg₂ (fun x y => { p with left := x, top := y }) ?_ ?_ <;>
    push_cast <;> ring

lemma dispPiece_id (p : Piece) (dir : Int × Int) (k : Nat) :
    (dispPiece p dir k).id = p.id := rfl

lemma nudgeStep_id_disp (dir : Int × Int) (p : Piece) :
    nudgeStep (fun v => v) dir p = dispPiece p dir 1 := by
  simp [nudgeStep, dispPiece]

/-! Claim C5: the overlap test reports exactly intersection of open
interiors. -/

/-- C5: for pieces of positive extent, `doOverlap a b` returns `true` iff
the open interiors of the rectangles `[left, left+width) × [top,
top+height)` intersect (witnessed by a rational point strictly inside
both); rectangles merely touching along an edge or corner are not reported
as overlapping. -/
theorem doOverlap_iff_interiors_intersect (a b : Piece)
    (ha : 0 < a.width) (hb : 0 < a.height)
    (hc : 0 < b.width) (hd : 0 < b.height) :
    doOverlap a b = true ↔
      ∃ x y : ℚ,
        ((a.left : ℚ) < x ∧ x < (a.left : ℚ) + (a.width : ℚ) ∧
         (b.left : ℚ) < x ∧ x < (b.left : ℚ) + (b.width : ℚ)) ∧
        ((a.top : ℚ) < y ∧ y < (a.top : ℚ) + (a.height : ℚ) ∧
         (b.top : ℚ) < y ∧ y < (b.top : ℚ) + (b.height : ℚ)) := by
  rw [doOverlap_eq_true_iff]
  constructor
  · rintro ⟨h1, h2, h3, h4⟩
    have hx : max a.left b.left < min (a.left + a.width) (b.left + b.width) := by
      omega
    have hy : max a.top b.top < min (a.top + a.height) (b.top + b.height) := by
      omega
    refine ⟨((max a.left b.left : Int) + (min (a.left + a.width) (b.left + b.width) : Int) : ℚ) / 2,
            ((max a.top b.top : Int) + (min (a.top + a.height) (b.top + b.height) : Int) : ℚ) / 2,
            ⟨?_, ?_, ?_, ?_⟩, ⟨?_, ?_, ?_, ?_⟩⟩
    · have e1 : (a.left : ℚ) ≤ ((max a.left b.left : Int) : ℚ) := by
        exact_mod_cast le_max_left a.left b.left
      have e2 : ((max a.left b.left : Int) : ℚ) <
          ((min (a.left + a.width) (b.left + b.width) : Int) : ℚ) := by
        exact_mod_cast hx
      linarith
    · have e1 : ((min (a.left + a.width) (b.left + b.width) : Int) : ℚ) ≤
          (a.left : ℚ) + (a.width : ℚ) := by
        have := min_le_left (a.left + a.width) (b.left + b.width)
        push_cast
        exact_mod_cast this
      have e2 : ((max a.left b.left : Int) : ℚ) <
          ((min (a.left + a.width) (b.left + b.width) : Int) : ℚ) := by
        exact_mod_cast hx
      linarith
    · have e1 : (b.left : ℚ) ≤ ((max a.left b.left : Int) : ℚ) := by
        exact_mod_cast le_max_right a.left b.left
      have e2 : ((max a.left b.left : Int) : ℚ) <
          ((min (a.left + a.width) (b.left + b.width) : Int) : ℚ) := by
        exact_mod_cast hx
      linarith
    · have e1 : ((min (a.left + a.width) (b.left + b.width) : Int) : ℚ) ≤
          (b.left : ℚ) + (b.width : ℚ) := by
        have := min_le_right (a.left + a.width) (b.left + b.width)
        push_cast
        exact_mod_cast this
      have e2 : ((max a.left b.left : Int) : ℚ) <
          ((min (a.left + a.width) (b.left + b.width) : Int) : ℚ) := by
        exact_mod_cast hx
      linarith
    · have e1 : (a.top : ℚ) ≤ ((max a.top b.top : Int) : ℚ) := by
        exact_mod_cast le_max_left a.top b.top
      have e2 : ((max a.top b.top : Int) : ℚ) <
          ((min (a.top + a.height) (b.top + b.height) : Int) : ℚ) := by
        exact_mod_cast hy
      linarith
    · have e1 : ((min (a.top + a.height) (b.top + b.height) : Int) : ℚ) ≤
          (a.top : ℚ) + (a.height : ℚ) := by
        have := min_le_left (a.top + a.height) (b.top + b.height)
        push_cast
        exact_mod_cast this
      have e2 : ((max a.top b.top : Int) : ℚ) <
          ((min (a.top + a.height) (b.top + b.height) : Int) : ℚ) := by
        exact_mod_cast hy
      linarith
    · have e1 : (b.top : ℚ) ≤ ((max a.top b.top : Int) : ℚ) := by
        exact_mod_cast le_max_right a.top b.top
      have e2 : ((max a.top b.top : Int) : ℚ) <
          ((min (a.top + a.height) (b.top + b.height) : Int) : ℚ) := by
        exact_mod_cast hy
      linarith
    · have e1 : ((min (a.top + a.height) (b.top + b.height) : Int) : ℚ) ≤
          (b.top : ℚ) + (b.height : ℚ) := by
        have := min_le_right (a.top + a.height) (b.top + b.height)
        push_cast
        exact_mod_cast this
      have e2 : ((max a.top b.top : Int) : ℚ) <
          ((min (a.top + a.height) (b.top + b.height) : Int) : ℚ) := by
        exact_mod_cast hy
      linarith
  · rintro ⟨x, y, ⟨hx1, hx2, hx3, hx4⟩, ⟨hy1, hy2, hy3, hy4⟩⟩
    refine ⟨?_, ?_, ?_, ?_⟩
    · have : (b.left : ℚ) < (a.left : ℚ) + (a.width : ℚ) := lt_trans hx3 hx2
      exact_mod_cast this
    · have : (a.left : ℚ) < (b.left : ℚ) + (b.width : ℚ) := lt_trans hx1 hx4
      exact_mod_cast this
    · have : (b.top : ℚ) < (a.top : ℚ) + (a.height : ℚ) := lt_trans hy3 hy2
      exact_mod_cast this
    · have : (a.top : ℚ) < (b.top : ℚ) + (b.height : ℚ) := lt_trans hy1 hy4
      exact_mod_cast this

/-! Claims C6 and C3: bounded displacement form of the nudge loop and of
the placement search. -/

lemma nudgeGo_id_spec (others : List Piece) (dir : Int × Int) :
    ∀ (f : Nat) (p : Piece), ∃ k : ℕ, k ≤ f ∧
      nudgeGo (fun v => v) others dir f p = dispPiece p dir k ∧
      (nudgeAnyOverlap (dispPiece p dir k) others = true → k = f) := by
  intro f
  induction f with
  | zero =>
      intro p
      exact ⟨0, Nat.le_refl _, (dispPiece_zero p dir).symm, fun _ => rfl⟩
  | succ n ih =>
      intro p
      by_cases h : nudgeAnyOverlap p others = true
      · obtain ⟨k, hk, heq, himp⟩ := ih (nudgeStep (fun v => v) dir p)
        rw [nudgeStep_id_disp, dispPiece_dispPiece] at heq himp
        refine ⟨k + 1, Nat.succ_le_succ hk, ?_, ?_⟩
        · rw [nudgeGo, if_pos h, nudgeStep_id_disp, heq, Nat.add_comm 1 k]
        · intro hov
          have hkn : k = n := himp (by rwa [Nat.add_comm k 1] at hov)
          omega
      · refine ⟨0, Nat.zero_le _, ?_, ?_⟩
        · rw [nudgeGo, if_neg h, dispPiece_zero]
        · intro hov
          rw [dispPiece_zero] at hov
          exact absurd hov h

lemma nudgeAnyOverlap_eq_true_iff (p : Piece) (others : List Piece) :
    nudgeAnyOverlap p others = true ↔
      ∃ o ∈ others, o.id ≠ p.id ∧ doOverlap p o = true := by
  simp [nudgeAnyOverlap, List.any_eq_true]

/-- C6 (amended): `nudgeUntilNoOverlap` returns the input piece displaced by
`k` grid steps in the given direction for some `k ≤ 201` (not `200`: the
loop breaks only after the post-increment counter exceeds `MAX_ITER`, so
the ceiling admits one extra displacement), and if the returned piece still
overlaps some differently-identified member of the set then exactly `k =
201` displacements occurred. -/
theorem nudge_displacement_bound (piece : Piece) (others : List Piece)
    (dir : Int × Int) :
    ∃ k : ℕ, k ≤ 201 ∧
      nudgeUntilNoOverlap piece others dir = dispPiece piece dir k ∧
      ((∃ o ∈ others, o.id ≠ piece.id ∧ doOverlap (dispPiece piece dir k) o = true) →
        k = 201) := by
  obtain ⟨k, hk, heq, himp⟩ := nudgeGo_id_spec others dir 201 piece
  refine ⟨k, hk, heq, fun hov => himp ?_⟩
  rw [nudgeAnyOverlap_eq_true_iff]
  obtain ⟨o, ho, hid, hov'⟩ := hov
  exact ⟨o, ho, by rwa [dispPiece_id], hov'⟩

lemma placeStep_id_disp (c : Piece) :
    { c with top := c.top + GRID_SIZE } = dispPiece c (0, 1) 1 := by
  simp [dispPiece, GRID_SIZE]

lemma placeGo_id_spec (existing : List Piece) :
    ∀ (f : Nat) (c : Piece), ∃ k : ℕ, k ≤ f ∧
      placeGo (fun v => v) existing f c = dispPiece c (0, 1) k ∧
      (existing.any (fun o => doOverlap (dispPiece c (0, 1) k) o) = true → k = f) := by
  intro f
  induction f with
  | zero =>
      intro c
      exact ⟨0, Nat.le_refl _, (dispPiece_zero c (0, 1)).symm, fun _ => rfl⟩
  | succ n ih =>
      intro c
      by_cases h : existing.any (fun o => doOverlap c o) = true
      · obtain ⟨k, hk, heq, himp⟩ := ih { c with top := c.top + GRID_SIZE }
        rw [placeStep_id_disp, dispPiece_dispPiece] at heq himp
        refine ⟨k + 1, Nat.succ_le_succ hk, ?_, ?_⟩
        · rw [placeGo, if_pos h, placeStep_id_disp, heq, Nat.add_comm 1 k]
        · intro hov
          have hkn : k = n := himp (by rwa [Nat.add_comm k 1] at hov)
          omega
      · refine ⟨0, Nat.zero_le _, ?_, ?_⟩
        · rw [placeGo, if_neg h, dispPiece_zero]
        · intro hov
          rw [dispPiece_zero] at hov
          exact absurd hov h

/-- C3: `findNonOverlappingPlacement` returns a piece identical to the
candidate except for its top coordinate, which is moved downward by `k`
whole grid steps for some `k ≤ 500`; the result overlaps a member of the
existing set only if the iteration ceiling was exhausted (`k = 500`), in
which case the last candidate is returned unchecked. -/
theorem findNonOverlappingPlacement_spec (cand : Piece) (existing : List Piece) :
    ∃ k : ℕ, k ≤ 500 ∧
      findNonOverlappingPlacement cand existing = dispPiece cand (0, 1) k ∧
      ((∃ o ∈ existing, doOverlap (dispPiece cand (0, 1) k) o = true) → k = 500) := by
  obtain ⟨k, hk, heq, himp⟩ := placeGo_id_spec existing 500 cand
  refine ⟨k, hk, heq, fun hov => himp ?_⟩
  rw [List.any_eq_true]
  obtain ⟨o, ho, hov'⟩ := hov
  exact ⟨o, ho, hov'⟩

/-! Claim C6, counterexample: one very wide obstacle forces the nudge loop
to perform its full budget of displacements, which is 201, not 200. -/

lemma exProbe_overlap (x : Int) (h0 : 0 ≤ x) (h1 : x < 4040) :
    nudgeAnyOverlap (exProbe x) [exWide] = true := by
  rw [nudgeAnyOverlap_eq_true_iff]
  refine ⟨exWide, List.mem_singleton_self _, by simp [exWide, exProbe], ?_⟩
  rw [doOverlap_eq_true_iff]
  simp only [exWide, exProbe]
  omega

lemma exProbe_step (x : Int) :
    nudgeStep (fun v => v) (1, 0) (exProbe x) = exProbe (x + 20) := by
  simp [nudgeStep, exProbe, GRID_SIZE]

lemma exProbe_run :
    ∀ (f : Nat) (x : Int), 0 ≤ x → x + 20 * f ≤ 4040 →
      nudgeGo (fun v => v) [exWide] (1, 0) f (exProbe x) = exProbe (x + 20 * f) := by
  intro f
  induction f with
  | zero => intro x _ _; simp [nudgeGo]
  | succ n ih =>
      intro x h0 h1
      have hov : nudgeAnyOverlap (exProbe x) [exWide] = true :=
        exProbe_overlap x h0 (by omega)
      rw [nudgeGo, if_pos hov, exProbe_step, ih (x + 20) (by omega) (by push_cast at h1 ⊢; omega)]
      congr 1
      push_cast
      ring

/-- C6, counterexample: against a 4040-wide obstacle the nudge loop
performs 201 displacements, so the returned piece is not the input
displaced by any `k ≤ 200` grid steps. -/
theorem nudge_ceiling_counterexample :
    ¬ ∃ k : ℕ, k ≤ 200 ∧
      nudgeUntilNoOverlap (exProbe 0) [exWide] (1, 0) =
        dispPiece (exProbe 0) (1, 0) k := by
  have hrun : nudgeUntilNoOverlap (exProbe 0) [exWide] (1, 0) = exProbe 4020 := by
    have h := exProbe_run 201 0 (by omega) (by norm_num)
    rw [nudgeUntilNoOverlap, nudgeUntilNoOverlapS, h]
    norm_num
  rintro ⟨k, hk, heq⟩
  rw [hrun] at heq
  have hleft : (4020 : Int) = 0 + 1 * GRID_SIZE * (k : Int) := congrArg Piece.left heq
  rw [GRID_SIZE] at hleft
  omega

/-! Claim C4: within a pass, the later piece of an overlapping pair is the
one nudged, and the direction is chosen by strict area comparison. -/

lemma frame_nudgeGo (msnap : Int → Int) (others : List Piece)
    (dir : Int × Int) :
    ∀ (f : Nat) (p : Piece), frame (nudgeGo msnap others dir f p) = frame p := by
  intro f
  induction f with
  | zero => intro p; rfl
  | succ n ih =>
      intro p
      rw [nudgeGo]
      split
      · rw [ih]; rfl
      · rfl

lemma getElem?_some_lt_length {α : Type} (l : List α) (n : Nat) (a : α)
    (h : l[n]? = some a) : n < l.length := by
  by_contra hge
  rw [List.getElem?_eq_none (Nat.le_of_not_lt hge)] at h
  exact absurd h (by simp)

/-- C4: when the pieces at indices `i < j` of the working list overlap, the
pair step of a resolver pass leaves every piece except the one at index `j`
unchanged, reports a collision, and replaces the piece at index `j` by a
piece with the same identity, content and extent, moved rightward (its top
unchanged, its left grown by whole grid steps) exactly when the piece at
index `i` has strictly smaller area, and moved downward (its left
unchanged, its top grown by whole grid steps) otherwise — in particular
downward on equal areas. -/
theorem resolver_pair_step_direction (ps : List Piece) (i j : Nat)
    (p1 p2 : Piece) (hij : i < j) (h1 : ps[i]? = some p1)
    (h2 : ps[j]? = some p2) (hov : doOverlap p1 p2 = true) :
    ∃ p2' : Piece,
      scanJ (fun v => v) i 1 j ps false = (ps.set j p2', true) ∧
      frame p2' = frame p2 ∧
      (p1.width * p1.height < p2.width * p2.height →
        p2'.top = p2.top ∧
          ∃ k : ℕ, k ≤ 201 ∧ p2'.left = p2.left + GRID_SIZE * (k : Int)) ∧
      (¬ p1.width * p1.height < p2.width * p2.height →
        p2'.left = p2.left ∧
          ∃ k : ℕ, k ≤ 201 ∧ p2'.top = p2.top + GRID_SIZE * (k : Int)) := by
  have hj : j < ps.length := getElem?_some_lt_length ps j p2 h2
  refine ⟨nudgeUntilNoOverlapS (fun v => v) p2 (ps.eraseIdx j)
      (if p1.width * p1.height < p2.width * p2.height then
        ((1 : Int), (0 : Int))
      else ((0 : Int), (1 : Int))), ?_, ?_, ?_, ?_⟩
  · rw [scanJ, if_pos hj, h1, h2]
    simp only [if_pos hov]
    rw [scanJ]
  · rw [nudgeUntilNoOverlapS]
    exact frame_nudgeGo _ _ _ 201 p2
  · intro harea
    rw [if_pos harea, nudgeUntilNoOverlapS]
    obtain ⟨k, hk, heq, -⟩ :=
      nudgeGo_id_spec (ps.eraseIdx j) ((1 : Int), (0 : Int)) 201 p2
    rw [heq]
    refine ⟨by simp [dispPiece], k, hk, by simp [dispPiece]⟩
  · intro harea
    rw [if_neg harea, nudgeUntilNoOverlapS]
    obtain ⟨k, hk, heq, -⟩ :=
      nudgeGo_id_spec (ps.eraseIdx j) ((0 : Int), (1 : Int)) 201 p2
    rw [heq]
    refine ⟨by simp [dispPiece], k, hk, by simp [dispPiece]⟩

/-! Claim C2: the resolver executes at most 500 passes and is total. -/

lemma resolveLoopCount_spec (msnap : Int → Int) :
    ∀ (f : Nat) (ps : List Piece),
      (resolveLoopCount msnap f ps).2 ≤ f ∧
      (resolveLoopCount msnap f ps).1 = resolveLoop msnap f ps := by
  intro f
  induction f with
  | zero => intro ps; exact ⟨Nat.le_refl _, rfl⟩
  | succ n ih =>
      intro ps
      by_cases h : (onePass msnap ps).2 = true
      · obtain ⟨hc, hr⟩ := ih (onePass msnap ps).1
        constructor
        · rw [resolveLoopCount, if_pos h]
          exact Nat.succ_le_succ hc
        · rw [resolveLoopCount, if_pos h, resolveLoop, if_pos h, hr]
      · constructor
        · rw [resolveLoopCount, if_neg h]
          exact Nat.succ_le_succ (Nat.zero_le n)
        · rw [resolveLoopCount, if_neg h, resolveLoop, if_neg h]

/-- C2: `resolveAllCollisions` is total by construction and its outer loop
executes at most 500 passes on every input: the instrumented variant
returns the same result together with a pass count that never exceeds
500. -/
theorem resolveAllCollisions_pass_bound (ps : List Piece) :
    (resolveAllCollisionsCount ps).2 ≤ 500 ∧
    (resolveAllCollisionsCount ps).1 = resolveAllCollisions ps := by
  exact resolveLoopCount_spec (fun v => v) 500 ps

/-! Claim C1: the resolver returns pairwise non-overlapping sets unchanged
(fixed point), but full idempotence fails when the pass ceiling is
exhausted. -/

lemma scanJ_clean (msnap : Int → Int) (ps : List Piece)
    (hfree : OverlapFree ps) :
    ∀ (fuel j i : Nat) (found : Bool), i < j →
      scanJ msnap i fuel j ps found = (ps, found) := by
  intro fuel
  induction fuel with
  | zero => intro j i found _; rfl
  | succ n ih =>
      intro j i found hij
      by_cases hj : j < ps.length
      · have hi : i < ps.length := lt_trans hij hj
        have hov : doOverlap ps[i] ps[j] = false :=
          List.pairwise_iff_getElem.mp hfree i j hi hj hij
        rw [scanJ, if_pos hj, List.getElem?_eq_getElem hi,
          List.getElem?_eq_getElem hj]
        simp only [hov, Bool.false_eq_true, if_false]
        exact ih (j + 1) i found (by omega)
      · rw [scanJ, if_neg hj]

lemma scanI_clean (msnap : Int → Int) (ps : List Piece)
    (hfree : OverlapFree ps) :
    ∀ (fuel i : Nat) (found : Bool), scanI msnap fuel i ps found = (ps, found) := by
  intro fuel
  induction fuel with
  | zero => intro i found; rfl
  | succ n ih =>
      intro i found
      by_cases hi : i < ps.length
      · rw [scanI, if_pos hi,
          scanJ_clean msnap ps hfree ps.length (i + 1) i found (Nat.lt_succ_self i)]
        exact ih (i + 1) found
      · rw [scanI, if_neg hi]

lemma onePass_clean (msnap : Int → Int) (ps : List Piece)
    (hfree : OverlapFree ps) : onePass msnap ps = (ps, false) :=
  scanI_clean msnap ps hfree ps.length 0 false

/-- C1 (amended): on every pairwise non-overlapping piece set,
`resolveAllCollisions` is the identity; consequently applying the resolver
twice agrees with applying it once whenever the first application reaches a
pairwise non-overlapping state (which holds whenever the 500-pass ceiling
is not exhausted).  Unconditional idempotence fails: see the
counterexample. -/
theorem resolveAllCollisions_fixed_point (ps : List Piece)
    (hfree : OverlapFree ps) : resolveAllCollisions ps = ps := by
  rw [resolveAllCollisions, resolveAllCollisionsS, resolveLoop,
    onePass_clean (fun v => v) ps hfree]
  simp

lemma exBig_overlap_small (t : Int) (h0 : 0 ≤ t) (h1 : t < 2010040) :
    doOverlap exBig (exSmallAt t) = true := by
  rw [doOverlap_eq_true_iff]
  simp only [exBig, exSmallAt]
  omega

lemma exBig_clear_small (t : Int) (h : 2010040 ≤ t) :
    doOverlap exBig (exSmallAt t) = false := by
  cases hcase : doOverlap exBig (exSmallAt t) with
  | false => rfl
  | true =>
      obtain ⟨-, -, hlt, -⟩ := (doOverlap_eq_true_iff _ _).mp hcase
      simp only [exBig, exSmallAt] at hlt
      omega

lemma exSmall_nudgeOverlap (t : Int) (h0 : 0 ≤ t) (h1 : t < 2010040) :
    nudgeAnyOverlap (exSmallAt t) [exBig] = true := by
  rw [nudgeAnyOverlap_eq_true_iff]
  refine ⟨exBig, List.mem_singleton_self _, by simp [exBig, exSmallAt], ?_⟩
  rw [doOverlap_eq_true_iff]
  simp only [exBig, exSmallAt]
  omega

lemma exSmall_nudgeClear (t : Int) (h : 2010040 ≤ t) :
    nudgeAnyOverlap (exSmallAt t) [exBig] = false := by
  cases hcase : nudgeAnyOverlap (exSmallAt t) [exBig] with
  | false => rfl
  | true =>
      obtain ⟨o, ho, -, hov⟩ := (nudgeAnyOverlap_eq_true_iff _ _).mp hcase
      rw [List.mem_singleton] at ho
      subst ho
      obtain ⟨-, -, -, hlt⟩ := (doOverlap_eq_true_iff _ _).mp hov
      simp only [exBig, exSmallAt] at hlt
      omega

lemma exSmall_step (t : Int) :
    nudgeStep (fun v => v) (0, 1) (exSmallAt t) = exSmallAt (t + 20) := by
  simp [nudgeStep, exSmallAt, GRID_SIZE]

lemma exSmall_nudge_clear_run (f : Nat) (t : Int) (h : 2010040 ≤ t) :
    nudgeGo (fun v => v) [exBig] (0, 1) f (exSmallAt t) = exSmallAt t := by
  cases f with
  | zero => rfl
  | succ n =>
      rw [nudgeGo, if_neg]
      rw [exSmall_nudgeClear t h]
      exact Bool.false_ne_true

lemma exSmall_nudge_run :
    ∀ (f : Nat) (t : Int), 0 ≤ t → t + 20 * f ≤ 2010040 →
      nudgeGo (fun v => v) [exBig] (0, 1) f (exSmallAt t) =
        exSmallAt (t + 20 * f) := by
  intro f
  induction f with
  | zero => intro t _ _; simp [nudgeGo]
  | succ n ih =>
      intro t h0 hb
      have h1 : t < 2010040 := by push_cast at hb; omega
      rw [nudgeGo, if_pos (exSmall_nudgeOverlap t h0 h1), exSmall_step,
        ih (t + 20) (by omega) (by push_cast at hb ⊢; omega)]
      congr 1
      push_cast
      ring

lemma exSmall_nudge_boundary :
    ∀ (f : Nat) (t : Int), 0 ≤ t → 20 ∣ t → t < 2010040 →
      2010040 ≤ t + 20 * f →
      nudgeGo (fun v => v) [exBig] (0, 1) f (exSmallAt t) =
        exSmallAt 2010040 := by
  intro f
  induction f with
  | zero => intro t _ _ h1 h2; push_cast at h2; omega
  | succ n ih =>
      intro t h0 hd h1 h2
      rw [nudgeGo, if_pos (exSmall_nudgeOverlap t h0 h1), exSmall_step]
      by_cases h3 : t + 20 < 2010040
      · exact ih (t + 20) (by omega) (by omega) h3 (by push_cast at h2 ⊢; omega)
      · have ht : t + 20 = 2010040 := by omega
        rw [ht]
        exact exSmall_nudge_clear_run n 2010040 (by omega)

lemma exPass_overlap (t : Int) (h0 : 0 ≤ t) (h1 : t < 2010040) :
    onePass (fun v => v) [exBig, exSmallAt t] =
      ([exBig, nudgeGo (fun v => v) [exBig] (0, 1) 201 (exSmallAt t)], true) := by
  have hbs : doOverlap exBig (exSmallAt t) = true := exBig_overlap_small t h0 h1
  have harea :
      ¬ exBig.width * exBig.height < (exSmallAt t).width * (exSmallAt t).height := by
    simp only [exBig, exSmallAt]
    norm_num
  simp only [onePass, scanI, scanJ, List.length_cons, List.length_nil,
    List.getElem?_cons_zero, List.getElem?_cons_succ, hbs, harea,
    List.eraseIdx, List.set, nudgeUntilNoOverlapS, ite_true, ite_false,
    if_true, if_false, Nat.lt_irrefl, Nat.one_lt_two, Nat.zero_lt_two]
  norm_num

lemma exPass_clear (t : Int) (h : 2010040 ≤ t) :
    onePass (fun v => v) [exBig, exSmallAt t] = ([exBig, exSmallAt t], false) := by
  apply onePass_clean
  rw [OverlapFree]
  simp only [List.pairwise_cons, List.mem_singleton, List.not_mem_nil,
    IsEmpty.forall_iff, forall_eq, List.Pairwise.nil, and_true, true_and]
  exact ⟨exBig_clear_small t h, fun _ => trivial⟩

lemma exResolve_run :
    ∀ (f : Nat) (t : Int), 0 ≤ t → 20 ∣ t → t + 4020 * f ≤ 2010040 →
      resolveLoop (fun v => v) f [exBig, exSmallAt t] =
        [exBig, exSmallAt (t + 4020 * f)] := by
  intro f
  induction f with
  | zero => intro t _ _ _; norm_num [resolveLoop]
  | succ n ih =>
      intro t h0 hd hb
      have h1 : t < 2010040 := by push_cast at hb; omega
      rw [resolveLoop, exPass_overlap t h0 h1]
      simp only [ite_true]
      have hrun : nudgeGo (fun v => v) [exBig] (0, 1) 201 (exSmallAt t) =
          exSmallAt (t + 4020) := by
        have := exSmall_nudge_run 201 t h0 (by push_cast at hb ⊢; omega)
        rwa [show ((20 : Int) * (201 : Nat) = 4020) by norm_num] at this
      rw [hrun, ih (t + 4020) (by omega) (by omega)
        (by push_cast at hb ⊢; omega)]
      have harg : t + 4020 + 4020 * (n : Int) = t + 4020 * ((n + 1 : Nat) : Int) := by
        push_cast
        ring
      rw [harg]

lemma exResolve_second :
    resolveLoop (fun v => v) 500 [exBig, exSmallAt 2010000] =
      [exBig, exSmallAt 2010040] := by
  rw [resolveLoop, exPass_overlap 2010000 (by norm_num) (by norm_num)]
  simp only [ite_true]
  have hrun : nudgeGo (fun v => v) [exBig] (0, 1) 201 (exSmallAt 2010000) =
      exSmallAt 2010040 :=
    exSmall_nudge_boundary 201 2010000 (by norm_num) (by norm_num)
      (by norm_num) (by norm_num)
  rw [hrun]
  have h2 := exPass_clear 2010040 (le_refl 2010040)
  rw [resolveLoop, h2]
  simp

/-- C1, counterexample: on the concrete two-piece input `[exBig, exSmallAt
0]` the resolver exhausts its 500-pass ceiling while the pieces still
overlap, and a second application moves the second piece further, so
`resolveAllCollisions` applied twice differs from one application. -/
theorem resolveAllCollisions_not_idempotent :
    resolveAllCollisions (resolveAllCollisions [exBig, exSmallAt 0]) ≠
      resolveAllCollisions [exBig, exSmallAt 0] := by
  have h1 : resolveAllCollisions [exBig, exSmallAt 0] =
      [exBig, exSmallAt 2010000] := by
    have h := exResolve_run 500 0 (by norm_num) (by norm_num) (by norm_num)
    norm_num at h
    rw [resolveAllCollisions, resolveAllCollisionsS]
    exact h
  rw [h1, resolveAllCollisions, resolveAllCollisionsS, exResolve_second]
  intro hcontra
  simp only [List.cons.injEq, and_true, true_and] at hcontra
  have h40 := congrArg Piece.top hcontra
  simp [exSmallAt] at h40

/-! Claim C7: the resize step never brings a dimension below the minimum
size, and a rejected left/top edge change leaves geometry untouched. -/

lemma snapToGrid_ge_min (v : Int) (h : MIN_SIZE ≤ v) :
    MIN_SIZE ≤ snapToGrid v := by
  rw [MIN_SIZE] at h ⊢
  rw [snapToGrid, Int.fdiv_eq_ediv _ (by norm_num)]
  omega

lemma resize_width_ge (edge : String)
    (initW initH initTop initLeft dx dy : Int) (piece : Piece)
    (hw : MIN_SIZE ≤ piece.width) :
    MIN_SIZE ≤ (resizeStep edge initW initH initTop initLeft dx dy piece).width := by
  rw [resizeStep, resizeStepS]
  split_ifs with h1 h2 h3 h4 h5 h6 h7 h8
  · exact snapToGrid_ge_min _ h2
  · exact hw
  · exact snapToGrid_ge_min _ h4
  · exact hw
  · exact hw
  · exact hw
  · exact hw
  · exact hw
  · exact hw

lemma resize_height_ge (edge : String)
    (initW initH initTop initLeft dx dy : Int) (piece : Piece)
    (hh : MIN_SIZE ≤ piece.height) :
    MIN_SIZE ≤ (resizeStep edge initW initH initTop initLeft dx dy piece).height := by
  rw [resizeStep, resizeStepS]
  split_ifs with h1 h2 h3 h4 h5 h6 h7 h8
  · exact hh
  · exact hh
  · exact hh
  · exact hh
  · exact snapToGrid_ge_min _ h6
  · exact hh
  · exact snapToGrid_ge_min _ h8
  · exact hh
  · exact hh

lemma resize_left_reject (edge : String)
    (initW initH initTop initLeft dx dy : Int) (piece : Piece)
    (he : edge = "left") (hrej : initW - dx < MIN_SIZE) :
    (resizeStep edge initW initH initTop initLeft dx dy piece).left = piece.left ∧
    (resizeStep edge initW initH initTop initLeft dx dy piece).width = piece.width := by
  rw [resizeStep, resizeStepS]
  split_ifs with h1 h2
  · exact absurd hrej (not_lt.mpr h1)
  · exact ⟨rfl, rfl⟩

lemma resize_top_reject (edge : String)
    (initW initH initTop initLeft dx dy : Int) (piece : Piece)
    (he : edge = "top") (hrej : initH - dy < MIN_SIZE) :
    (resizeStep edge initW initH initTop initLeft dx dy piece).top = piece.top ∧
    (resizeStep edge initW initH initTop initLeft dx dy piece).height = piece.height := by
  rw [resizeStep, resizeStepS]
  split_ifs with h1 h2 h3 h4 h5 h6
  · exact absurd h1 (by rw [he]; decide)
  · exact absurd h1 (by rw [he]; decide)
  · exact absurd h3 (by rw [he]; decide)
  · exact absurd h3 (by rw [he]; decide)
  · exact absurd hrej (not_lt.mpr h5)
  · exact ⟨rfl, rfl⟩

/-- C7: if a piece's width and height are each at least the 30-unit minimum
before a resize pointer-move step, they remain so after it, for every edge
and every delta; moreover a left-edge (resp. top-edge) change whose
resulting width (resp. height) would fall below the minimum is rejected
entirely, leaving both the dimension and the position coordinate
unchanged. -/
theorem resizeStep_min_size (edge : String)
    (initW initH initTop initLeft dx dy : Int) (piece : Piece)
    (hw : MIN_SIZE ≤ piece.width) (hh : MIN_SIZE ≤ piece.height) :
    (MIN_SIZE ≤ (resizeStep edge initW initH initTop initLeft dx dy piece).width ∧
     MIN_SIZE ≤ (resizeStep edge initW initH initTop initLeft dx dy piece).height) ∧
    (edge = "left" → initW - dx < MIN_SIZE →
      (resizeStep edge initW initH initTop initLeft dx dy piece).left = piece.left ∧
      (resizeStep edge initW initH initTop initLeft dx dy piece).width = piece.width) ∧
    (edge = "top" → initH - dy < MIN_SIZE →
      (resizeStep edge initW initH initTop initLeft dx dy piece).top = piece.top ∧
      (resizeStep edge initW initH initTop initLeft dx dy piece).height = piece.height) :=
  ⟨⟨resize_width_ge edge initW initH initTop initLeft dx dy piece hw,
    resize_height_ge edge initW initH initTop initLeft dx dy piece hh⟩,
   resize_left_reject edge initW initH initTop initLeft dx dy piece,
   resize_top_reject edge initW initH initTop initLeft dx dy piece⟩

/-! Claim C8: with snapping enabled, every geometry-committing operation
maps grid-aligned piece sets to grid-aligned piece sets. -/

lemma mem_of_getElem?_eq_some {α : Type} (l : List α) (n : Nat) (a : α)
    (h : l[n]? = some a) : a ∈ l := by
  have hlt : n < l.length := getElem?_some_lt_length l n a h
  have hget : l[n] = a := by simpa [List.getElem?_eq_getElem hlt] using h
  exact hget ▸ l.getElem_mem hlt

lemma snapToGrid_aligned (v : Int) : snapToGrid v % 20 = 0 := by
  rw [snapToGrid]
  omega

lemma aligned_nudgeStep (p : Piece) (dir : Int × Int) (h : Aligned p) :
    Aligned (nudgeStep snapToGrid dir p) := by
  obtain ⟨-, -, hw, hh⟩ := h
  exact ⟨snapToGrid_aligned _, snapToGrid_aligned _, hw, hh⟩

lemma aligned_nudgeGo (others : List Piece) (dir : Int × Int) :
    ∀ (f : Nat) (p : Piece), Aligned p →
      Aligned (nudgeGo snapToGrid others dir f p) := by
  intro f
  induction f with
  | zero => intro p h; exact h
  | succ n ih =>
      intro p h
      rw [nudgeGo]
      split
      · exact ih _ (aligned_nudgeStep p dir h)
      · exact h

lemma aligned_placeGo (existing : List Piece) :
    ∀ (f : Nat) (c : Piece), Aligned c →
      Aligned (placeGo snapToGrid existing f c) := by
  intro f
  induction f with
  | zero => intro c h; exact h
  | succ n ih =>
      intro c h
      rw [placeGo]
      split
      · obtain ⟨-, hl, hw, hh⟩ := h
        exact ih _ ⟨snapToGrid_aligned _, hl, hw, hh⟩
      · exact h

lemma aligned_scanJ (i : Nat) :
    ∀ (fuel j : Nat) (ps : List Piece) (found : Bool),
      (∀ p ∈ ps, Aligned p) →
      ∀ q ∈ (scanJ snapToGrid i fuel j ps found).1, Aligned q := by
  intro fuel
  induction fuel with
  | zero => intro j ps found h q hq; exact h q hq
  | succ n ih =>
      intro j ps found h q hq
      by_cases hj : j < ps.length
      · rw [scanJ, if_pos hj] at hq
        rcases hpi : ps[i]? with - | p1 <;> rcases hpj : ps[j]? with - | p2 <;>
          simp only [hpi, hpj] at hq
        · exact ih (j + 1) ps found h q hq
        · exact ih (j + 1) ps found h q hq
        · exact ih (j + 1) ps found h q hq
        · by_cases hov : doOverlap p1 p2 = true
          · simp only [hov, if_true] at hq
            refine ih (j + 1) _ true ?_ q hq
            intro r hr
            rcases List.mem_or_eq_of_mem_set hr with hmem | rfl
            · exact h r hmem
            · exact aligned_nudgeGo _ _ 201 p2
                (h p2 (mem_of_getElem?_eq_some ps j p2 hpj))
          · simp only [hov, if_false, Bool.false_eq_true] at hq
            exact ih (j + 1) ps found h q hq
      · rw [scanJ, if_neg hj] at hq
        exact h q hq

lemma aligned_scanI :
    ∀ (fuel i : Nat) (ps : List Piece) (found : Bool),
      (∀ p ∈ ps, Aligned p) →
      ∀ q ∈ (scanI snapToGrid fuel i ps found).1, Aligned q := by
  intro fuel
  induction fuel with
  | zero => intro i ps found h q hq; exact h q hq
  | succ n ih =>
      intro i ps found h q hq
      by_cases hi : i < ps.length
      · rw [scanI, if_pos hi] at hq
        exact ih (i + 1) _ _ (aligned_scanJ i ps.length (i + 1) ps found h) q hq
      · rw [scanI, if_neg hi] at hq
        exact h q hq

lemma aligned_resolveLoop :
    ∀ (fuel : Nat) (ps : List Piece),
      (∀ p ∈ ps, Aligned p) →
      ∀ q ∈ resolveLoop snapToGrid fuel ps, Aligned q := by
  intro fuel
  induction fuel with
  | zero => intro ps h q hq; exact h q hq
  | succ n ih =>
      intro ps h q hq
      rw [resolveLoop] at hq
      split at hq
      · exact ih _ (aligned_scanI ps.length 0 ps false h) q hq
      · exact aligned_scanI ps.length 0 ps false h q hq

/-- C8: with snapping enabled (snap = round to the nearest multiple of 20),
every geometry-committing operation preserves exact 20-alignment of all of
`top`, `left`, `width`, `height`: the snap itself always produces multiples
of 20, piece creation aligns unconditionally, and placement search, the
nudge loop, the global resolver, a drag update and a resize update all map
aligned pieces to aligned pieces. -/
theorem snapping_grid_alignment :
    (∀ v : Int, snapToGrid v % 20 = 0) ∧
    (∀ (pid srcUrl : String) (w h t l : Int),
      Aligned (mkImagePieceS snapToGrid pid srcUrl w h t l)) ∧
    (∀ (pid colorVal : String) (w h t l : Int),
      Aligned (mkColorPieceS snapToGrid pid colorVal w h t l)) ∧
    (∀ (cand : Piece) (existing : List Piece), Aligned cand →
      Aligned (findNonOverlappingPlacementS snapToGrid cand existing)) ∧
    (∀ (piece : Piece) (others : List Piece) (dir : Int × Int), Aligned piece →
      Aligned (nudgeUntilNoOverlapS snapToGrid piece others dir)) ∧
    (∀ ps : List Piece, (∀ p ∈ ps, Aligned p) →
      ∀ q ∈ resolveAllCollisionsS snapToGrid ps, Aligned q) ∧
    (∀ (piece : Piece) (newLeft newTop : Int), Aligned piece →
      Aligned (dragUpdate piece newLeft newTop)) ∧
    (∀ (edge : String) (initW initH initTop initLeft dx dy : Int)
      (piece : Piece), Aligned piece →
      Aligned (resizeStep edge initW initH initTop initLeft dx dy piece)) := by
  refine ⟨fun v => snapToGrid_aligned v, ?_, ?_, ?_, ?_, ?_, ?_, ?_⟩
  · intro pid srcUrl w h t l
    exact ⟨snapToGrid_aligned _, snapToGrid_aligned _, snapToGrid_aligned _,
      snapToGrid_aligned _⟩
  · intro pid colorVal w h t l
    exact ⟨snapToGrid_aligned _, snapToGrid_aligned _, snapToGrid_aligned _,
      snapToGrid_aligned _⟩
  · intro cand existing h
    exact aligned_placeGo existing 500 cand h
  · intro piece others dir h
    exact aligned_nudgeGo others dir 201 piece h
  · intro ps h
    exact aligned_resolveLoop 500 ps h
  · intro piece newLeft newTop h
    obtain ⟨-, -, hw, hh⟩ := h
    exact ⟨snapToGrid_aligned _, snapToGrid_aligned _, hw, hh⟩
  · intro edge initW initH initTop initLeft dx dy piece h
    obtain ⟨ht, hl, hw, hh⟩ := h
    rw [resizeStep, resizeStepS]
    split_ifs
    · exact ⟨ht, snapToGrid_aligned _, snapToGrid_aligned _, hh⟩
    · exact ⟨ht, hl, hw, hh⟩
    · exact ⟨ht, hl, snapToGrid_aligned _, hh⟩
    · exact ⟨ht, hl, hw, hh⟩
    · exact ⟨snapToGrid_aligned _, hl, hw, snapToGrid_aligned _⟩
    · exact ⟨ht, hl, hw, hh⟩
    · exact ⟨ht, hl, hw, snapToGrid_aligned _⟩
    · exact ⟨ht, hl, hw, hh⟩
    · exact ⟨ht, hl, hw, hh⟩

/-! Claim C9: `bringToFront` moves the identified piece to the end, keeps
the relative order of the rest, and is the identity when the id is
absent. -/

lemma findIdx?_id_append_cons (pid : String) :
    ∀ (xs : List Piece) (p : Piece) (ys : List Piece), p.id = pid →
      (∀ q ∈ xs, q.id ≠ pid) →
      (xs ++ p :: ys).findIdx? (fun q => q.id == pid) = some xs.length := by
  intro xs
  induction xs with
  | nil =>
      intro p ys hp _
      simp [List.findIdx?_cons, hp]
  | cons a tl ih =>
      intro p ys hp hx
      have ha : (a.id == pid) = false :=
        beq_eq_false_iff_ne.mpr (hx a (List.mem_cons_self a tl))
      have htl := ih p ys hp (fun q hq => hx q (List.mem_cons_of_mem a hq))
      simp [List.findIdx?_cons, ha, htl]

lemma findIdx?_id_none (pid : String) :
    ∀ l : List Piece, (∀ q ∈ l, q.id ≠ pid) →
      l.findIdx? (fun q => q.id == pid) = none := by
  intro l
  induction l with
  | nil => intro _; rfl
  | cons a tl ih =>
      intro h
      have ha : (a.id == pid) = false :=
        beq_eq_false_iff_ne.mpr (h a (List.mem_cons_self a tl))
      have htl := ih (fun q hq => h q (List.mem_cons_of_mem a hq))
      simp [List.findIdx?_cons, ha, htl]

lemma getElem?_append_cons_length {α : Type} :
    ∀ (xs : List α) (p : α) (ys : List α), (xs ++ p :: ys)[xs.length]? = some p := by
  intro xs
  induction xs with
  | nil => intro p ys; simp
  | cons a tl ih => intro p ys; simpa using ih p ys

lemma eraseIdx_append_cons_length {α : Type} :
    ∀ (xs : List α) (p : α) (ys : List α),
      (xs ++ p :: ys).eraseIdx xs.length = xs ++ ys := by
  intro xs
  induction xs with
  | nil => intro p ys; rfl
  | cons a tl ih => intro p ys; simpa [List.eraseIdx] using ih p ys

/-- C9: for every id, `bringToFront` moves the (unique) piece carrying that
id to the last position, leaving the relative order of all other pieces
unchanged and modifying no piece, and returns the list unchanged when no
piece carries the id. -/
theorem bringToFront_spec (pid : String) :
    (∀ (xs : List Piece) (p : Piece) (ys : List Piece), p.id = pid →
      (∀ q ∈ xs, q.id ≠ pid) →
      bringToFront (xs ++ p :: ys) pid = xs ++ ys ++ [p]) ∧
    (∀ l : List Piece, (∀ q ∈ l, q.id ≠ pid) → bringToFront l pid = l) := by
  constructor
  · intro xs p ys hp hx
    rw [bringToFront, findIdx?_id_append_cons pid xs p ys hp hx]
    simp only [getElem?_append_cons_length, eraseIdx_append_cons_length,
      List.append_assoc]
  · intro l h
    rw [bringToFront, findIdx?_id_none pid l h]

/-! Claim C10: the resolver preserves length, order, identity, content and
extent of every piece; only positions may change. -/

lemma map_frame_set (ps : List Piece) (j : Nat) (x p2 : Piece)
    (hpj : ps[j]? = some p2) (hfr : frame x = frame p2) :
    (ps.set j x).map frame = ps.map frame := by
  rw [List.map_set, hfr]
  apply set_getElem?_eq_self
  rw [List.getElem?_map, hpj]
  rfl

lemma scanJ_map_frame (msnap : Int → Int) (i : Nat) :
    ∀ (fuel j : Nat) (ps : List Piece) (found : Bool),
      ((scanJ msnap i fuel j ps found).1).map frame = ps.map frame := by
  intro fuel
  induction fuel with
  | zero => intro j ps found; rfl
  | succ n ih =>
      intro j ps found
      by_cases hj : j < ps.length
      · rw [scanJ, if_pos hj]
        rcases hpi : ps[i]? with - | p1 <;> rcases hpj : ps[j]? with - | p2 <;>
          simp only
        · exact ih (j + 1) ps found
        · exact ih (j + 1) ps found
        · exact ih (j + 1) ps found
        · by_cases hov : doOverlap p1 p2 = true
          · simp only [hov, if_true]
            rw [ih (j + 1) _ true]
            exact map_frame_set ps j _ p2 hpj
              (frame_nudgeGo msnap (ps.eraseIdx j) _ 201 p2)
          · simp only [hov, if_false, Bool.false_eq_true]
            exact ih (j + 1) ps found
      · rw [scanJ, if_neg hj]

lemma scanI_map_frame (msnap : Int → Int) :
    ∀ (fuel i : Nat) (ps : List Piece) (found : Bool),
      ((scanI msnap fuel i ps found).1).map frame = ps.map frame := by
  intro fuel
  induction fuel with
  | zero => intro i ps found; rfl
  | succ n ih =>
      intro i ps found
      by_cases hi : i < ps.length
      · rw [scanI, if_pos hi, ih]
        exact scanJ_map_frame msnap i ps.length (i + 1) ps found
      · rw [scanI, if_neg hi]

lemma resolveLoop_map_frame (msnap : Int → Int) :
    ∀ (fuel : Nat) (ps : List Piece),
      (resolveLoop msnap fuel ps).map frame = ps.map frame := by
  intro fuel
  induction fuel with
  | zero => intro ps; rfl
  | succ n ih =>
      intro ps
      rw [resolveLoop]
      split
      · rw [ih]
        exact scanI_map_frame msnap ps.length 0 ps false
      · exact scanI_map_frame msnap ps.length 0 ps false

/-- C10: `resolveAllCollisions` preserves the number of pieces and, at
every index, the piece's id, content variant, content references, width
and height — only `left` and `top` may change; the order of ids is
preserved because the per-index non-positional projections are. -/
theorem resolveAllCollisions_frame_preservation (ps : List Piece) :
    (resolveAllCollisions ps).map frame = ps.map frame ∧
    (resolveAllCollisions ps).length = ps.length := by
  have h : (resolveAllCollisions ps).map frame = ps.map frame :=
    resolveLoop_map_frame (fun v => v) 500 ps
  refine ⟨h, ?_⟩
  have hlen := congrArg List.length h
  simpa using hlen

/-! Witness instantiations of the theorems with hypotheses. -/

/-- Witness for the amended C1 theorem at a concrete pairwise
non-overlapping two-piece list. -/
theorem resolveAllCollisions_fixed_point_witness :
    OverlapFree [wBlockA, wBlockB] ∧
    resolveAllCollisions [wBlockA, wBlockB] = [wBlockA, wBlockB] :=
  ⟨by decide, resolveAllCollisions_fixed_point [wBlockA, wBlockB] (by decide)⟩

/-- Witness for the C3 theorem at a concrete candidate and empty existing
set. -/
theorem findNonOverlappingPlacement_spec_witness :
    ∃ k : ℕ, k ≤ 500 ∧
      findNonOverlappingPlacement wBlockA [] = dispPiece wBlockA (0, 1) k ∧
      ((∃ o ∈ ([] : List Piece), doOverlap (dispPiece wBlockA (0, 1) k) o = true) →
        k = 500) :=
  findNonOverlappingPlacement_spec wBlockA []

/-- Witness for the C4 theorem at two concrete overlapping equal-area
pieces. -/
theorem resolver_pair_step_direction_witness :
    ∃ p2' : Piece,
      scanJ (fun v => v) 0 1 1 [wBlockA, wBlockC] false =
        ([wBlockA, wBlockC].set 1 p2', true) ∧
      frame p2' = frame wBlockC ∧
      (wBlockA.width * wBlockA.height < wBlockC.width * wBlockC.height →
        p2'.top = wBlockC.top ∧
          ∃ k : ℕ, k ≤ 201 ∧ p2'.left = wBlockC.left + GRID_SIZE * (k : Int)) ∧
      (¬ wBlockA.width * wBlockA.height < wBlockC.width * wBlockC.height →
        p2'.left = wBlockC.left ∧
          ∃ k : ℕ, k ≤ 201 ∧ p2'.top = wBlockC.top + GRID_SIZE * (k : Int)) :=
  resolver_pair_step_direction [wBlockA, wBlockC] 0 1 wBlockA wBlockC
    (by decide) (by decide) (by decide) (by decide)

/-- Witness for the C5 theorem at two concrete coincident positive
rectangles. -/
theorem doOverlap_iff_interiors_intersect_witness :
    (0 < wBlockA.width ∧ 0 < wBlockA.height ∧
     0 < wBlockC.width ∧ 0 < wBlockC.height) ∧
    (doOverlap wBlockA wBlockC = true ↔
      ∃ x y : ℚ,
        ((wBlockA.left : ℚ) < x ∧ x < (wBlockA.left : ℚ) + (wBlockA.width : ℚ) ∧
         (wBlockC.left : ℚ) < x ∧ x < (wBlockC.left : ℚ) + (wBlockC.width : ℚ)) ∧
        ((wBlockA.top : ℚ) < y ∧ y < (wBlockA.top : ℚ) + (wBlockA.height : ℚ) ∧
         (wBlockC.top : ℚ) < y ∧ y < (wBlockC.top : ℚ) + (wBlockC.height : ℚ))) :=
  ⟨⟨by decide, by decide, by decide, by decide⟩,
   doOverlap_iff_interiors_intersect wBlockA wBlockC
     (by decide) (by decide) (by decide) (by decide)⟩

/-- Witness for the amended C6 theorem at a concrete piece with an empty
obstacle set. -/
theorem nudge_displacement_bound_witness :
    ∃ k : ℕ, k ≤ 201 ∧
      nudgeUntilNoOverlap wBlockA [] ((1 : Int), (0 : Int)) =
        dispPiece wBlockA (1, 0) k ∧
      ((∃ o ∈ ([] : List Piece), o.id ≠ wBlockA.id ∧
          doOverlap (dispPiece wBlockA (1, 0) k) o = true) → k = 201) :=
  nudge_displacement_bound wBlockA [] (1, 0)

/-- Witness for the C7 theorem at a concrete piece and a left-edge step
whose resulting width falls below the minimum. -/
theorem resizeStep_min_size_witness :
    (MIN_SIZE ≤ wBlockA.width ∧ MIN_SIZE ≤ wBlockA.height) ∧
    (MIN_SIZE ≤ (resizeStep "left" 40 40 0 0 35 0 wBlockA).width ∧
     MIN_SIZE ≤ (resizeStep "left" 40 40 0 0 35 0 wBlockA).height) ∧
    ("left" = "left" → (40 : Int) - 35 < MIN_SIZE →
      (resizeStep "left" 40 40 0 0 35 0 wBlockA).left = wBlockA.left ∧
      (resizeStep "left" 40 40 0 0 35 0 wBlockA).width = wBlockA.width) ∧
    ("left" = "top" → (40 : Int) - 0 < MIN_SIZE →
      (resizeStep "left" 40 40 0 0 35 0 wBlockA).top = wBlockA.top ∧
      (resizeStep "left" 40 40 0 0 35 0 wBlockA).height = wBlockA.height) :=
  ⟨⟨by decide, by decide⟩,
   resizeStep_min_size "left" 40 40 0 0 35 0 wBlockA (by decide) (by decide)⟩

/-- Witness for the C8 theorem: concrete aligned instantiations of the
creation, drag and nudge components. -/
theorem snapping_grid_alignment_witness :
    Aligned wBlockA ∧
    Aligned (mkImagePieceS snapToGrid "p" "u" 33 47 11 13) ∧
    Aligned (dragUpdate wBlockA 33 47) ∧
    Aligned (nudgeUntilNoOverlapS snapToGrid wBlockA [] ((1 : Int), (0 : Int))) :=
  ⟨by decide,
   snapping_grid_alignment.2.1 "p" "u" 33 47 11 13,
   snapping_grid_alignment.2.2.2.2.2.2.1 wBlockA 33 47 (by decide),
   snapping_grid_alignment.2.2.2.2.1 wBlockA [] (1, 0) (by decide)⟩

/-- Witness for the C9 theorem: a present id is moved to the back, an
absent id leaves the list unchanged. -/
theorem bringToFront_spec_witness :
    (wBlockB.id = "b" ∧ (∀ q ∈ [wBlockA], q.id ≠ "b") ∧
      bringToFront ([wBlockA] ++ wBlockB :: []) "b" = [wBlockA] ++ [] ++ [wBlockB]) ∧
    ((∀ q ∈ [wBlockA], q.id ≠ "z") ∧ bringToFront [wBlockA] "z" = [wBlockA]) :=
  ⟨⟨rfl, by decide, (bringToFront_spec "b").1 [wBlockA] wBlockB [] rfl (by decide)⟩,
   ⟨by decide, (bringToFront_spec "z").2 [wBlockA] (by decide)⟩⟩
